import Mathlib

/-
Shallow embedding of the 2D broad-phase collision subsystem of the
game-engine-service repository (files `physics/collision.cpp` and
`physics/collision_world.cpp`), together with theorems settling the
claims about it.

Modelling choices:
  * C++ `float` coordinates are modelled by `ℚ`; every operation used by
    this component (comparison, `min`, `+`, `-`, `*`) is order-exact.
  * `CollisionLayer` is a `uint32_t` bitmask; it is modelled by `Nat`,
    with a reduction `% 2^32` exactly where the C++ casts to `uint32_t`.
  * `std::unordered_map<EntityID, size_t>` is modelled by its observable
    behaviour, a function `EntityID → Option Nat`.
  * `std::vector<ColliderEntry>` is a `List ColliderEntry`; unchecked
    `operator[]` is modelled by `List.getD` with the entry produced by
    the C++ default constructor as the default element.
-/

namespace GameEngine

abbrev EntityID := Nat

/-- The named `CollisionLayer` enum value `None` (value 0). -/
def layerNone : Nat := 0

/-- The named `CollisionLayer` enum value `Default` (bit 0). -/
def layerDefault : Nat := 1

/-- The named `CollisionLayer` enum value `All` (all 32 bits set). -/
def layerAll : Nat := 0xFFFFFFFF

/-- `hasLayer(mask, layer)` from collision.h: `(mask & layer) != CollisionLayer::None`. -/
def hasLayer (mask layer : Nat) : Bool := decide (mask &&& layer ≠ 0)

/-- `CollisionMask` from collision.h: a shape's own layer and the set of
layers it is willing to collide with. -/
structure CollisionMask where
  layer : Nat
  collidesWith : Nat
  deriving DecidableEq

/-- `CollisionMask::canCollideWith`: directional test of `this->collidesWith`
against `other.layer`. -/
def CollisionMask.canCollideWith (m other : CollisionMask) : Bool :=
  hasLayer m.collidesWith other.layer

/-- The `CollisionMask` default constructor: layer `Default`, collides with `All`. -/
def defaultMask : CollisionMask := ⟨layerDefault, layerAll⟩

/-- `AABB` from collision.h: origin and extents. -/
structure AABB where
  x : ℚ
  y : ℚ
  width : ℚ
  height : ℚ
  deriving DecidableEq

def AABB.left (a : AABB) : ℚ := a.x

def AABB.right (a : AABB) : ℚ := a.x + a.width

def AABB.top (a : AABB) : ℚ := a.y

def AABB.bottom (a : AABB) : ℚ := a.y + a.height

/-- `AABB::contains`: inclusive on all four edges. -/
def AABB.contains (a : AABB) (px py : ℚ) : Bool :=
  decide (px ≥ a.left) && decide (px ≤ a.right) && decide (py ≥ a.top) && decide (py ≤ a.bottom)

/-- `AABB::intersects`: strict inequalities on all four comparisons. -/
def AABB.intersects (a other : AABB) : Bool :=
  decide (a.left < other.right) && decide (a.right > other.left) &&
    decide (a.top < other.bottom) && decide (a.bottom > other.top)

/-- `ColliderComponent` (the fields relevant to the collision world). -/
structure ColliderComponent where
  width : ℚ
  height : ℚ
  offsetX : ℚ
  offsetY : ℚ
  collisionMask : CollisionMask
  isTrigger : Bool
  deriving DecidableEq

/-- The `ColliderComponent` default constructor: unit size, zero offset,
default mask, not a trigger. -/
def defaultCollider : ColliderComponent :=
  ⟨1, 1, 0, 0, defaultMask, false⟩

instance : Inhabited ColliderComponent := ⟨defaultCollider⟩

/-- `ColliderComponent::getBounds(entityX, entityY, scaleX, scaleY)`:
offset is scaled, size is scaled. -/
def ColliderComponent.getBounds (c : ColliderComponent) (entityX entityY scaleX scaleY : ℚ) : AABB :=
  ⟨entityX + c.offsetX * scaleX, entityY + c.offsetY * scaleY, c.width * scaleX, c.height * scaleY⟩

/-- `ColliderEntry` from collision_world.h: one registration record. -/
structure ColliderEntry where
  entityId : EntityID
  posX : ℚ
  posY : ℚ
  scaleX : ℚ
  scaleY : ℚ
  collider : ColliderComponent
  deriving DecidableEq

/-- The `ColliderEntry` default constructor: id 0, position 0, scale 1. -/
def defaultEntry : ColliderEntry := ⟨0, 0, 0, 1, 1, defaultCollider⟩

instance : Inhabited ColliderEntry := ⟨defaultEntry⟩

/-- `ColliderEntry::getBounds`. -/
def ColliderEntry.getBounds (e : ColliderEntry) : AABB :=
  e.collider.getBounds e.posX e.posY e.scaleX e.scaleY

/-- `CollisionInfo` from collision.h. -/
structure CollisionInfo where
  entityA : EntityID
  entityB : EntityID
  boundsA : AABB
  boundsB : AABB
  overlapX : ℚ
  overlapY : ℚ
  isTrigger : Bool
  deriving DecidableEq

/-- The zero-initialised `CollisionInfo` used as the local out-parameter. -/
def defaultInfo : CollisionInfo :=
  ⟨0, 0, ⟨0, 0, 0, 0⟩, ⟨0, 0, 0, 0⟩, 0, 0, false⟩

instance : Inhabited CollisionInfo := ⟨defaultInfo⟩

/-- Observable model of `std::unordered_map<EntityID, size_t>`. -/
abbrev IndexMap := EntityID → Option Nat

/-- `map[key] = value` on an unordered map: update-or-insert. -/
def mset (m : IndexMap) (k : EntityID) (v : Nat) : IndexMap :=
  fun k' => if k' = k then some v else m k'

/-- `map.erase(key)` on an unordered map. -/
def merase (m : IndexMap) (k : EntityID) : IndexMap :=
  fun k' => if k' = k then none else m k'

/-- `CollisionWorld` state: dense entry sequence, index map, 8x8 layer matrix
(one 32-bit row per layer bit index). Callback slots are modelled at the
dispatch site (`processCollisions` returns the dispatched events). -/
structure CollisionWorld where
  colliders : List ColliderEntry
  entityIndexMap : IndexMap
  layerMatrix : Nat → Nat

/-- The `CollisionWorld` constructor: no entries, every layer-matrix row
all-ones. -/
def initWorld : CollisionWorld :=
  ⟨[], fun _ => none, fun _ => 0xFFFFFFFF⟩

/-- `CollisionWorld::removeCollider`: no-op when unregistered, otherwise
swap-with-last (when not last), pop_back, and erase from the index map. -/
def CollisionWorld.removeCollider (w : CollisionWorld) (entityId : EntityID) : CollisionWorld :=
  match w.entityIndexMap entityId with
  | none => w
  | some index =>
    if index < w.colliders.length - 1 then
      let lastE := w.colliders.getD (w.colliders.length - 1) default
      { w with
        colliders := (w.colliders.set index lastE).dropLast
        entityIndexMap := merase (mset w.entityIndexMap lastE.entityId index) entityId }
    else
      { w with
        colliders := w.colliders.dropLast
        entityIndexMap := merase w.entityIndexMap entityId }

/-- `CollisionWorld::addCollider` (five-argument overload): removes any
existing registration for the id, then appends and records the new index. -/
def CollisionWorld.addCollider (w : CollisionWorld) (entityId : EntityID)
    (x y scaleX scaleY : ℚ) (collider : ColliderComponent) : CollisionWorld :=
  let w1 := if (w.entityIndexMap entityId).isSome then w.removeCollider entityId else w
  let colliders1 := w1.colliders ++ [ColliderEntry.mk entityId x y scaleX scaleY collider]
  { w1 with
    colliders := colliders1
    entityIndexMap := mset w1.entityIndexMap entityId (colliders1.length - 1) }

/-- `CollisionWorld::addCollider` (four-argument overload): scale (1, 1). -/
def CollisionWorld.addCollider4 (w : CollisionWorld) (entityId : EntityID)
    (x y : ℚ) (collider : ColliderComponent) : CollisionWorld :=
  w.addCollider entityId x y 1 1 collider

/-- `CollisionWorld::updatePosition`: in-place mutation, no-op when
unregistered. -/
def CollisionWorld.updatePosition (w : CollisionWorld) (entityId : EntityID) (x y : ℚ) : CollisionWorld :=
  match w.entityIndexMap entityId with
  | none => w
  | some index =>
    let e := w.colliders.getD index default
    { w with colliders := w.colliders.set index { e with posX := x, posY := y } }

/-- `CollisionWorld::updateScale`: in-place mutation, no-op when
unregistered. -/
def CollisionWorld.updateScale (w : CollisionWorld) (entityId : EntityID) (scaleX scaleY : ℚ) : CollisionWorld :=
  match w.entityIndexMap entityId with
  | none => w
  | some index =>
    let e := w.colliders.getD index default
    { w with colliders := w.colliders.set index { e with scaleX := scaleX, scaleY := scaleY } }

/-- `CollisionWorld::clear`: drops all entries and the whole index map. -/
def CollisionWorld.clear (w : CollisionWorld) : CollisionWorld :=
  { w with colliders := [], entityIndexMap := fun _ => none }

/-- `CollisionWorld::hasCollider`. -/
def CollisionWorld.hasCollider (w : CollisionWorld) (entityId : EntityID) : Bool :=
  (w.entityIndexMap entityId).isSome

/-- `CollisionWorld::getCollider`: the looked-up entry, or null. -/
def CollisionWorld.getCollider (w : CollisionWorld) (entityId : EntityID) : Option ColliderEntry :=
  match w.entityIndexMap entityId with
  | some index => some (w.colliders.getD index default)
  | none => none

/-- `CollisionWorld::getColliderCount`. -/
def CollisionWorld.getColliderCount (w : CollisionWorld) : Nat :=
  w.colliders.length

/-- The `CollisionInfo` record pushed for an intersecting pair, exactly as
built in the detection loops (initiating entry first). -/
def mkPairInfo (a b : ColliderEntry) : CollisionInfo :=
  { entityA := a.entityId
    entityB := b.entityId
    boundsA := a.getBounds
    boundsB := b.getBounds
    overlapX := min (a.getBounds.right - b.getBounds.left) (b.getBounds.right - a.getBounds.left)
    overlapY := min (a.getBounds.bottom - b.getBounds.top) (b.getBounds.bottom - a.getBounds.top)
    isTrigger := a.collider.isTrigger || b.collider.isTrigger }

/-- Inner loop of `detectCollisions`: entry `a` against every later entry. -/
def scanOne (a : ColliderEntry) (rest : List ColliderEntry) : List CollisionInfo :=
  rest.filterMap fun b => if a.getBounds.intersects b.getBounds then some (mkPairInfo a b) else none

/-- Outer loop of `detectCollisions`: every ordered pair `(i, j)`, `i < j`,
in scan order. -/
def scanPairs : List ColliderEntry → List CollisionInfo
  | [] => []
  | a :: rest => scanOne a rest ++ scanPairs rest

/-- `CollisionWorld::detectCollisions`: brute-force all-pairs scan, AABB
test only — no mask and no layer-matrix filter. -/
def CollisionWorld.detectCollisions (w : CollisionWorld) : List CollisionInfo :=
  scanPairs w.colliders

/-- `CollisionWorld::detectCollisionsForEntity`: one target against all other
entries; applies the target's `canCollideWith` mask test. -/
def CollisionWorld.detectCollisionsForEntity (w : CollisionWorld) (entityId : EntityID) : List CollisionInfo :=
  match w.entityIndexMap entityId with
  | none => []
  | some index =>
    let target := w.colliders.getD index default
    w.colliders.filterMap fun other =>
      if other.entityId = entityId then none
      else if target.getBounds.intersects other.getBounds then
        if target.collider.collisionMask.canCollideWith other.collider.collisionMask then
          some (mkPairInfo target other)
        else none
      else none

/-- `CollisionWorld::queryPoint` (three-argument overload): containment with
inclusive edges, then the layer filter against the entry's own layer. -/
def CollisionWorld.queryPoint (w : CollisionWorld) (x y : ℚ) (layerFilter : Nat) : List EntityID :=
  w.colliders.filterMap fun entry =>
    if entry.getBounds.contains x y then
      if hasLayer layerFilter entry.collider.collisionMask.layer then some entry.entityId
      else none
    else none

/-- `CollisionWorld::queryPoint` (two-argument overload): filter `All`. -/
def CollisionWorld.queryPoint2 (w : CollisionWorld) (x y : ℚ) : List EntityID :=
  w.queryPoint x y layerAll

/-- `CollisionWorld::queryAABB` (two-argument overload): intersection test
only; the layer filter parameter is accepted but never consulted. -/
def CollisionWorld.queryAABB (w : CollisionWorld) (bounds : AABB) (layerFilter : Nat) : List EntityID :=
  w.colliders.filterMap fun entry =>
    if bounds.intersects entry.getBounds then some entry.entityId else none

/-- `CollisionWorld::queryAABB` (one-argument overload): filter `All`. -/
def CollisionWorld.queryAABB1 (w : CollisionWorld) (bounds : AABB) : List EntityID :=
  w.queryAABB bounds layerAll

/-- `CollisionWorld::checkCollision` (with out-parameter): returns the
boolean result paired with the final value of the out-parameter. -/
def CollisionWorld.checkCollision (w : CollisionWorld) (a b : EntityID) (outInfo : CollisionInfo) :
    Bool × CollisionInfo :=
  match w.entityIndexMap a, w.entityIndexMap b with
  | some ia, some ib =>
    let entryA := w.colliders.getD ia default
    let entryB := w.colliders.getD ib default
    if entryA.getBounds.intersects entryB.getBounds then
      if entryA.collider.collisionMask.canCollideWith entryB.collider.collisionMask then
        (true,
          { entityA := a
            entityB := b
            boundsA := entryA.getBounds
            boundsB := entryB.getBounds
            overlapX := min (entryA.getBounds.right - entryB.getBounds.left)
              (entryB.getBounds.right - entryA.getBounds.left)
            overlapY := min (entryA.getBounds.bottom - entryB.getBounds.top)
              (entryB.getBounds.bottom - entryA.getBounds.top)
            isTrigger := entryA.collider.isTrigger || entryB.collider.isTrigger })
      else (false, outInfo)
    else (false, outInfo)
  | _, _ => (false, outInfo)

/-- `CollisionWorld::checkCollision` (boolean-only overload). -/
def CollisionWorld.checkCollision2 (w : CollisionWorld) (a b : EntityID) : Bool :=
  (w.checkCollision a b defaultInfo).fst

/-- One callback dispatch observed during `processCollisions`. -/
inductive DispatchEvent where
  | triggerEnter (a b : EntityID)
  | collision (info : CollisionInfo)
  deriving DecidableEq

/-- Dispatch loop of `processCollisions`: trigger-enter callback (ids only)
when `isTrigger`, else the collision callback with the full record. -/
def processLoop : List CollisionInfo → List DispatchEvent
  | [] => []
  | info :: rest =>
    (if info.isTrigger then DispatchEvent.triggerEnter info.entityA info.entityB
     else DispatchEvent.collision info) :: processLoop rest

/-- `CollisionWorld::processCollisions`: runs the unfiltered
`detectCollisions` and dispatches per pair; returns the dispatched events. -/
def CollisionWorld.processCollisions (w : CollisionWorld) : List DispatchEvent :=
  processLoop w.detectCollisions

/-- `CollisionWorld::setLayerCollisionEnabled`: per bit of either argument,
OR in (enable) or mask out (disable) the other argument, rows 0..7. -/
def CollisionWorld.setLayerCollisionEnabled (w : CollisionWorld) (layer1 layer2 : Nat) (enabled : Bool) :
    CollisionWorld :=
  let l1 := layer1 % 2 ^ 32
  let l2 := layer2 % 2 ^ 32
  { w with layerMatrix := fun i =>
      if i < 8 then
        let m0 := w.layerMatrix i
        let m1 :=
          if l1 &&& (1 <<< i) ≠ 0 then
            if enabled then m0 ||| l2 else m0 &&& (0xFFFFFFFF ^^^ l2)
          else m0
        if l2 &&& (1 <<< i) ≠ 0 then
          if enabled then m1 ||| l1 else m1 &&& (0xFFFFFFFF ^^^ l1)
        else m1
      else w.layerMatrix i }

/-- `CollisionWorld::isLayerCollisionEnabled`: for every bit of `layer1`
among indices 0..7, the matrix row must meet `layer2`. -/
def CollisionWorld.isLayerCollisionEnabled (w : CollisionWorld) (layer1 layer2 : Nat) : Bool :=
  let l1 := layer1 % 2 ^ 32
  let l2 := layer2 % 2 ^ 32
  (List.range 8).all fun i =>
    if l1 &&& (1 <<< i) ≠ 0 then decide (w.layerMatrix i &&& l2 ≠ 0) else true

/-- `CollisionWorld::shouldCollideLayers`. -/
def CollisionWorld.shouldCollideLayers (w : CollisionWorld) (a b : Nat) : Bool :=
  w.isLayerCollisionEnabled a b

/-- The index-map invariant: the map sends an id to an index exactly when
that index holds an entry with that id (which also forces registered ids to
be pairwise distinct across the dense sequence). -/
def WF (w : CollisionWorld) : Prop :=
  ∀ id idx, w.entityIndexMap id = some idx ↔
    (idx < w.colliders.length ∧ (w.colliders.getD idx default).entityId = id)

/-! Generic list helpers used by the invariant proofs. -/

theorem getD_append_lt {α : Type} [Inhabited α] (l l2 : List α) (i : Nat) (h : i < l.length) :
    (l ++ l2).getD i default = l.getD i default := by
  simp [List.getD_eq_getElem?_getD, List.getElem?_append_left h]

theorem getD_append_self {α : Type} [Inhabited α] (l : List α) (a : α) :
    (l ++ [a]).getD l.length default = a := by
  simp [List.getD_eq_getElem?_getD]

theorem getD_dropLast {α : Type} [Inhabited α] (l : List α) (i : Nat) (h : i < l.length - 1) :
    l.dropLast.getD i default = l.getD i default := by
  have h2 : i < l.length := by omega
  simp [List.getD_eq_getElem?_getD, List.getElem?_dropLast, h, List.getElem?_eq_getElem h2]

theorem getD_set_self {α : Type} [Inhabited α] (l : List α) (i : Nat) (v : α) (h : i < l.length) :
    (l.set i v).getD i default = v := by
  simp [List.getD_eq_getElem?_getD, List.getElem?_set_self, h]

theorem getD_set_ne {α : Type} [Inhabited α] (l : List α) (i j : Nat) (v : α) (h : i ≠ j) :
    (l.set i v).getD j default = l.getD j default := by
  simp [List.getD_eq_getElem?_getD, List.getElem?_set_ne h]

theorem getD_lt_eq_getElem {α : Type} [Inhabited α] (l : List α) (i : Nat) (h : i < l.length) :
    l.getD i default = l[i] := by
  simp [List.getD_eq_getElem?_getD, List.getElem?_eq_getElem h]

theorem filterMap_guard {α β : Type} (l : List α) (p : α → Bool) (g : α → β) :
    (l.filterMap fun e => if p e then some (g e) else none) = (l.filter p).map g := by
  induction l with
  | nil => rfl
  | cons a rest ih =>
    by_cases h : p a <;> simp [List.filterMap_cons, List.filter_cons, h, ih]

/-! Basic facts about the index-map model. -/

theorem mset_self (m : IndexMap) (k : EntityID) (v : Nat) : mset m k v k = some v := by
  simp [mset]

theorem mset_ne (m : IndexMap) (k k' : EntityID) (v : Nat) (h : k' ≠ k) :
    mset m k v k' = m k' := by
  simp [mset, h]

theorem merase_self (m : IndexMap) (k : EntityID) : merase m k k = none := by
  simp [merase]

theorem merase_ne (m : IndexMap) (k k' : EntityID) (h : k' ≠ k) : merase m k k' = m k' := by
  simp [merase, h]

/-! Well-formedness of the collision world. -/

theorem WF_initWorld : WF initWorld := by
  intro id idx
  simp [initWorld, WF]

theorem WF_clear (w : CollisionWorld) : WF w.clear := by
  intro id idx
  simp [CollisionWorld.clear]

/-- After any `removeCollider(id)`, the index map no longer resolves `id`
(this needs no well-formedness assumption). -/
theorem find_remove_self (w : CollisionWorld) (id : EntityID) :
    (w.removeCollider id).entityIndexMap id = none := by
  unfold CollisionWorld.removeCollider
  cases hmap : w.entityIndexMap id with
  | none => exact hmap
  | some index =>
    by_cases hlt : index < w.colliders.length - 1 <;> simp [hlt, merase]

/-- Registered ids pick out unique indices: a consequence of `WF`. -/
theorem WF_distinct (w : CollisionWorld) (hWF : WF w) (i j : Nat)
    (hi : i < w.colliders.length) (hj : j < w.colliders.length)
    (h : (w.colliders.getD i default).entityId = (w.colliders.getD j default).entityId) : i = j := by
  have h1 : w.entityIndexMap ((w.colliders.getD i default).entityId) = some i :=
    (hWF _ i).mpr ⟨hi, rfl⟩
  have h2 : w.entityIndexMap ((w.colliders.getD j default).entityId) = some j :=
    (hWF _ j).mpr ⟨hj, rfl⟩
  rw [h] at h1
  rw [h1] at h2
  exact Option.some_injective _ h2

/-- `removeCollider` preserves the index-map invariant. -/
theorem WF_remove (w : CollisionWorld) (id : EntityID) (hWF : WF w) : WF (w.removeCollider id) := by
  unfold CollisionWorld.removeCollider
  cases hmap : w.entityIndexMap id with
  | none => exact hWF
  | some index =>
    obtain ⟨hlen, hid⟩ := (hWF id index).mp hmap
    dsimp only
    by_cases hlt : index < w.colliders.length - 1
    · rw [if_pos hlt]
      have hlast_lt : w.colliders.length - 1 < w.colliders.length := by omega
      have hmap_last :
          w.entityIndexMap (w.colliders.getD (w.colliders.length - 1) default).entityId =
            some (w.colliders.length - 1) := (hWF _ _).mpr ⟨hlast_lt, rfl⟩
      have hlast_ne : (w.colliders.getD (w.colliders.length - 1) default).entityId ≠ id := by
        intro he
        rw [he, hmap] at hmap_last
        have := Option.some_injective _ hmap_last
        omega
      intro id' idx
      dsimp only
      have hsetlen : (w.colliders.set index (w.colliders.getD (w.colliders.length - 1) default)).length =
          w.colliders.length := by simp
      have hnewlen :
          ((w.colliders.set index (w.colliders.getD (w.colliders.length - 1) default)).dropLast).length =
            w.colliders.length - 1 := by simp
      constructor
      · intro h
        by_cases h1 : id' = id
        · subst h1
          rw [merase_self] at h
          cases h
        · rw [merase_ne _ _ _ h1] at h
          by_cases h2 : id' = (w.colliders.getD (w.colliders.length - 1) default).entityId
          · subst h2
            rw [mset_self] at h
            have hidx : idx = index := (Option.some_injective _ h).symm
            subst hidx
            refine ⟨by rw [hnewlen]; omega, ?_⟩
            rw [getD_dropLast _ _ (by rw [hsetlen]; omega), getD_set_self _ _ _ hlen]
          · rw [mset_ne _ _ _ _ h2] at h
            obtain ⟨hx1, hx2⟩ := (hWF id' idx).mp h
            have hne_idx : idx ≠ index := by
              intro he
              rw [he, hid] at hx2
              exact h1 hx2.symm
            have hne_last : idx ≠ w.colliders.length - 1 := by
              intro he
              rw [he] at hx2
              exact h2 hx2.symm
            refine ⟨by rw [hnewlen]; omega, ?_⟩
            rw [getD_dropLast _ _ (by rw [hsetlen]; omega),
              getD_set_ne _ _ _ _ (fun he => hne_idx he.symm)]
            exact hx2
      · rintro ⟨hx1, hx2⟩
        rw [hnewlen] at hx1
        rw [getD_dropLast _ _ (by rw [hsetlen]; omega)] at hx2
        by_cases he : idx = index
        · subst he
          rw [getD_set_self _ _ _ hlen] at hx2
          rw [← hx2, merase_ne _ _ _ hlast_ne, mset_self]
        · rw [getD_set_ne _ _ _ _ (fun h2 => he h2.symm)] at hx2
          have hm : w.entityIndexMap id' = some idx := (hWF id' idx).mpr ⟨by omega, hx2⟩
          have hne1 : id' ≠ id := by
            intro h
            rw [h, hmap] at hm
            exact he (Option.some_injective _ hm).symm
          have hne2 : id' ≠ (w.colliders.getD (w.colliders.length - 1) default).entityId := by
            intro h
            rw [h, hmap_last] at hm
            have := Option.some_injective _ hm
            omega
          rw [merase_ne _ _ _ hne1, mset_ne _ _ _ _ hne2]
          exact hm
    · rw [if_neg hlt]
      intro id' idx
      dsimp only
      have hnewlen : (w.colliders.dropLast).length = w.colliders.length - 1 := by simp
      constructor
      · intro h
        by_cases h1 : id' = id
        · subst h1
          rw [merase_self] at h
          cases h
        · rw [merase_ne _ _ _ h1] at h
          obtain ⟨hx1, hx2⟩ := (hWF id' idx).mp h
          have hne_idx : idx ≠ index := by
            intro he
            rw [he, hid] at hx2
            exact h1 hx2.symm
          refine ⟨by rw [hnewlen]; omega, ?_⟩
          rw [getD_dropLast _ _ (by omega)]
          exact hx2
      · rintro ⟨hx1, hx2⟩
        rw [hnewlen] at hx1
        rw [getD_dropLast _ _ hx1] at hx2
        have hm : w.entityIndexMap id' = some idx := (hWF id' idx).mpr ⟨by omega, hx2⟩
        have hne1 : id' ≠ id := by
          intro h
          rw [h, hmap] at hm
          have := Option.some_injective _ hm
          omega
        rw [merase_ne _ _ _ hne1]
        exact hm

/-- Replacing an entry by one with the same entity id preserves the
invariant. -/
theorem WF_set_preserving (w : CollisionWorld) (index : Nat) (e2 : ColliderEntry)
    (he : e2.entityId = (w.colliders.getD index default).entityId) (hWF : WF w) :
    WF { w with colliders := w.colliders.set index e2 } := by
  have hids : ∀ idx, idx < w.colliders.length →
      ((w.colliders.set index e2).getD idx default).entityId =
        (w.colliders.getD idx default).entityId := by
    intro idx hidx
    by_cases h2 : index = idx
    · subst h2
      rw [getD_set_self _ _ _ hidx, he]
    · rw [getD_set_ne _ _ _ _ h2]
  intro id' idx
  dsimp only
  rw [List.length_set]
  constructor
  · intro h
    obtain ⟨h1, h2⟩ := (hWF id' idx).mp h
    exact ⟨h1, by rw [hids idx h1]; exact h2⟩
  · rintro ⟨h1, h2⟩
    rw [hids idx h1] at h2
    exact (hWF id' idx).mpr ⟨h1, h2⟩

/-- `updatePosition` preserves the index-map invariant. -/
theorem WF_updatePosition (w : CollisionWorld) (id : EntityID) (x y : ℚ) (hWF : WF w) :
    WF (w.updatePosition id x y) := by
  unfold CollisionWorld.updatePosition
  cases hmap : w.entityIndexMap id with
  | none => exact hWF
  | some index => exact WF_set_preserving w index _ rfl hWF

/-- `updateScale` preserves the index-map invariant. -/
theorem WF_updateScale (w : CollisionWorld) (id : EntityID) (sx sy : ℚ) (hWF : WF w) :
    WF (w.updateScale id sx sy) := by
  unfold CollisionWorld.updateScale
  cases hmap : w.entityIndexMap id with
  | none => exact hWF
  | some index => exact WF_set_preserving w index _ rfl hWF

/-- Appending a fresh entry and recording its index preserves the
invariant. -/
theorem WF_append_entry (w : CollisionWorld) (e : ColliderEntry) (hWF : WF w)
    (hnone : w.entityIndexMap e.entityId = none) :
    WF { w with colliders := w.colliders ++ [e],
                entityIndexMap := mset w.entityIndexMap e.entityId ((w.colliders ++ [e]).length - 1) } := by
  intro id' idx
  dsimp only
  have hlen : (w.colliders ++ [e]).length = w.colliders.length + 1 := by simp
  have hval : (w.colliders ++ [e]).length - 1 = w.colliders.length := by simp
  constructor
  · intro h
    by_cases hid : id' = e.entityId
    · subst hid
      rw [mset_self] at h
      have hidx : idx = w.colliders.length := by
        have := Option.some_injective _ h
        omega
      subst hidx
      exact ⟨by omega, by rw [getD_append_self]⟩
    · rw [mset_ne _ _ _ _ hid] at h
      obtain ⟨h1, h2⟩ := (hWF id' idx).mp h
      exact ⟨by omega, by rw [getD_append_lt _ _ _ h1]; exact h2⟩
  · rintro ⟨h1, h2⟩
    rw [hlen] at h1
    by_cases hidx : idx = w.colliders.length
    · subst hidx
      rw [getD_append_self] at h2
      rw [← h2, mset_self, hval]
    · have hidx2 : idx < w.colliders.length := by omega
      rw [getD_append_lt _ _ _ hidx2] at h2
      have hm : w.entityIndexMap id' = some idx := (hWF id' idx).mpr ⟨hidx2, h2⟩
      have hid : id' ≠ e.entityId := by
        intro he
        rw [he, hnone] at hm
        cases hm
      rw [mset_ne _ _ _ _ hid]
      exact hm

/-- `addCollider` preserves the index-map invariant. -/
theorem WF_addCollider (w : CollisionWorld) (id : EntityID) (x y sx sy : ℚ)
    (col : ColliderComponent) (hWF : WF w) : WF (w.addCollider id x y sx sy col) := by
  unfold CollisionWorld.addCollider
  by_cases h : (w.entityIndexMap id).isSome
  · simp only [h, if_true]
    exact WF_append_entry (w.removeCollider id) (ColliderEntry.mk id x y sx sy col)
      (WF_remove w id hWF) (find_remove_self w id)
  · simp only [h, if_false]
    exact WF_append_entry w (ColliderEntry.mk id x y sx sy col) hWF
      (Option.not_isSome_iff_eq_none.mp h)

/-- `hasCollider` is false immediately after `removeCollider` of that id. -/
theorem hasCollider_remove_self (w : CollisionWorld) (id : EntityID) :
    (w.removeCollider id).hasCollider id = false := by
  simp [CollisionWorld.hasCollider, find_remove_self]

/-- Adding a previously unregistered id and then removing it restores the
collider count. -/
theorem count_add_remove (w : CollisionWorld) (id : EntityID) (x y sx sy : ℚ)
    (col : ColliderComponent) (h : w.entityIndexMap id = none) :
    ((w.addCollider id x y sx sy col).removeCollider id).getColliderCount = w.getColliderCount := by
  unfold CollisionWorld.addCollider
  simp only [h, Option.isSome_none, Bool.false_eq_true, if_false]
  unfold CollisionWorld.removeCollider
  dsimp only
  have e1 : mset w.entityIndexMap id
      ((w.colliders ++ [ColliderEntry.mk id x y sx sy col]).length - 1) id =
      some w.colliders.length := by
    rw [mset_self]
    simp
  rw [e1]
  dsimp only
  rw [if_neg (by simp)]
  unfold CollisionWorld.getColliderCount
  dsimp only
  simp

/-- Removal leaves every other id with exactly its previous `getCollider`
result. -/
theorem getCollider_remove_ne (w : CollisionWorld) (id id2 : EntityID) (hWF : WF w)
    (hne : id2 ≠ id) : (w.removeCollider id).getCollider id2 = w.getCollider id2 := by
  unfold CollisionWorld.removeCollider
  cases hmap : w.entityIndexMap id with
  | none => rfl
  | some index =>
    obtain ⟨hlen, hid⟩ := (hWF id index).mp hmap
    dsimp only
    by_cases hlt : index < w.colliders.length - 1
    · rw [if_pos hlt]
      unfold CollisionWorld.getCollider
      dsimp only
      by_cases h2 : id2 = (w.colliders.getD (w.colliders.length - 1) default).entityId
      · have hmap_last : w.entityIndexMap id2 = some (w.colliders.length - 1) := by
          rw [h2]
          exact (hWF _ _).mpr ⟨by omega, rfl⟩
        have e1 : merase (mset w.entityIndexMap
            (w.colliders.getD (w.colliders.length - 1) default).entityId index) id id2 =
            some index := by
          rw [merase_ne _ _ _ hne, h2, mset_self]
        rw [e1, hmap_last]
        dsimp only
        congr 1
        rw [getD_dropLast _ _ (by simp; omega), getD_set_self _ _ _ hlen]
      · have e1 : merase (mset w.entityIndexMap
            (w.colliders.getD (w.colliders.length - 1) default).entityId index) id id2 =
            w.entityIndexMap id2 := by
          rw [merase_ne _ _ _ hne, mset_ne _ _ _ _ h2]
        rw [e1]
        cases hm2 : w.entityIndexMap id2 with
        | none => rfl
        | some idx =>
          obtain ⟨hx1, hx2⟩ := (hWF id2 idx).mp hm2
          have hne_idx : idx ≠ index := by
            intro he
            rw [he, hid] at hx2
            exact hne hx2.symm
          have hne_last : idx ≠ w.colliders.length - 1 := by
            intro he
            rw [he] at hx2
            exact h2 hx2.symm
          dsimp only
          congr 1
          rw [getD_dropLast _ _ (by simp; omega),
            getD_set_ne _ _ _ _ (fun he => hne_idx he.symm)]
    · rw [if_neg hlt]
      unfold CollisionWorld.getCollider
      dsimp only
      rw [merase_ne _ _ _ hne]
      cases hm2 : w.entityIndexMap id2 with
      | none => rfl
      | some idx =>
        obtain ⟨hx1, hx2⟩ := (hWF id2 idx).mp hm2
        have hne_idx : idx ≠ index := by
          intro he
          rw [he, hid] at hx2
          exact hne hx2.symm
        dsimp only
        congr 1
        rw [getD_dropLast _ _ (by omega)]

/-! Facts about the pairwise scan. -/

theorem AABB.intersects_symm (a b : AABB) : a.intersects b = b.intersects a := by
  rw [Bool.eq_iff_iff]
  simp only [AABB.intersects, Bool.and_eq_true, decide_eq_true_eq]
  constructor
  · rintro ⟨⟨⟨h1, h2⟩, h3⟩, h4⟩
    exact ⟨⟨⟨h2, h1⟩, h4⟩, h3⟩
  · rintro ⟨⟨⟨h1, h2⟩, h3⟩, h4⟩
    exact ⟨⟨⟨h2, h1⟩, h4⟩, h3⟩

theorem mem_scanOne {info : CollisionInfo} {a : ColliderEntry} {l : List ColliderEntry} :
    info ∈ scanOne a l ↔
      ∃ b ∈ l, a.getBounds.intersects b.getBounds = true ∧ info = mkPairInfo a b := by
  unfold scanOne
  rw [List.mem_filterMap]
  constructor
  · rintro ⟨b, hb, hsome⟩
    by_cases h : a.getBounds.intersects b.getBounds
    · rw [if_pos h] at hsome
      exact ⟨b, hb, h, (Option.some_injective _ hsome).symm⟩
    · rw [if_neg h] at hsome
      cases hsome
  · rintro ⟨b, hb, h, rfl⟩
    exact ⟨b, hb, by rw [if_pos h]⟩

theorem scanPairs_sound {info : CollisionInfo} :
    ∀ {l : List ColliderEntry}, info ∈ scanPairs l →
      ∃ a b, a.getBounds.intersects b.getBounds = true ∧ info = mkPairInfo a b := by
  intro l
  induction l with
  | nil => intro h; cases h
  | cons a rest ih =>
    intro h
    rw [scanPairs, List.mem_append] at h
    rcases h with h | h
    · obtain ⟨b, _, hi, he⟩ := mem_scanOne.mp h
      exact ⟨a, b, hi, he⟩
    · exact ih h

theorem scanPairs_complete : ∀ (l : List ColliderEntry) (i j : Nat), i < j → j < l.length →
    ((l.getD i default).getBounds.intersects (l.getD j default).getBounds) = true →
    mkPairInfo (l.getD i default) (l.getD j default) ∈ scanPairs l := by
  intro l
  induction l with
  | nil => intro i j _ hj _; simp at hj
  | cons a rest ih =>
    intro i j hij hj hint
    rw [scanPairs, List.mem_append]
    match i, j with
    | 0, j0 + 1 =>
      left
      rw [List.getD_cons_zero] at hint ⊢
      rw [List.getD_cons_succ] at hint ⊢
      have hj0 : j0 < rest.length := by simpa using hj
      rw [mem_scanOne]
      refine ⟨rest.getD j0 default, ?_, hint, rfl⟩
      rw [getD_lt_eq_getElem _ _ hj0]
      exact List.getElem_mem hj0
    | i0 + 1, j0 + 1 =>
      right
      rw [List.getD_cons_succ] at hint ⊢
      rw [List.getD_cons_succ] at hint ⊢
      exact ih i0 j0 (by omega) (by simpa using hj) hint

/-- The overlap-field contract of every positive pair result. -/
def overlapSpec (info : CollisionInfo) : Prop :=
  info.overlapX = min (info.boundsA.right - info.boundsB.left) (info.boundsB.right - info.boundsA.left) ∧
  info.overlapY = min (info.boundsA.bottom - info.boundsB.top) (info.boundsB.bottom - info.boundsA.top) ∧
  0 ≤ info.overlapX ∧ 0 ≤ info.overlapY

theorem mkPairInfo_overlapSpec (a b : ColliderEntry)
    (h : a.getBounds.intersects b.getBounds = true) : overlapSpec (mkPairInfo a b) := by
  simp only [AABB.intersects, Bool.and_eq_true, decide_eq_true_eq] at h
  obtain ⟨⟨⟨h1, h2⟩, h3⟩, h4⟩ := h
  refine ⟨rfl, rfl, ?_, ?_⟩
  · exact le_min (by linarith) (by linarith)
  · exact le_min (by linarith) (by linarith)

theorem processLoop_eq_map (l : List CollisionInfo) :
    processLoop l = l.map fun info =>
      if info.isTrigger then DispatchEvent.triggerEnter info.entityA info.entityB
      else DispatchEvent.collision info := by
  induction l with
  | nil => rfl
  | cons info rest ih => rw [processLoop, List.map_cons, ih]

/-! Membership analysis for the per-entity scan. -/

theorem mem_dCFE {w : CollisionWorld} {id : EntityID} {info : CollisionInfo}
    (h : info ∈ w.detectCollisionsForEntity id) :
    ∃ index other, w.entityIndexMap id = some index ∧ other ∈ w.colliders ∧
      other.entityId ≠ id ∧
      (w.colliders.getD index default).getBounds.intersects other.getBounds = true ∧
      (w.colliders.getD index default).collider.collisionMask.canCollideWith
        other.collider.collisionMask = true ∧
      info = mkPairInfo (w.colliders.getD index default) other := by
  unfold CollisionWorld.detectCollisionsForEntity at h
  revert h
  cases hmap : w.entityIndexMap id with
  | none => intro h; cases h
  | some index =>
    dsimp only
    intro h
    rw [List.mem_filterMap] at h
    obtain ⟨other, hmem, hsome⟩ := h
    by_cases h1 : other.entityId = id
    · rw [if_pos h1] at hsome
      cases hsome
    · rw [if_neg h1] at hsome
      by_cases h2 : (w.colliders.getD index default).getBounds.intersects other.getBounds = true
      · rw [if_pos h2] at hsome
        by_cases h3 : (w.colliders.getD index default).collider.collisionMask.canCollideWith
            other.collider.collisionMask = true
        · rw [if_pos h3] at hsome
          exact ⟨index, other, rfl, hmem, h1, h2, h3, (Option.some_injective _ hsome).symm⟩
        · rw [if_neg h3] at hsome
          cases hsome
      · rw [if_neg h2] at hsome
        cases hsome

/-- Under `WF`, a list member is the entry the index map resolves its id to. -/
theorem mem_resolves (w : CollisionWorld) (hWF : WF w) (other : ColliderEntry)
    (hm : other ∈ w.colliders) :
    ∃ k, w.entityIndexMap other.entityId = some k ∧ w.colliders.getD k default = other := by
  obtain ⟨⟨k, hk⟩, hget⟩ := List.mem_iff_get.mp hm
  have hgetD : w.colliders.getD k default = other := by
    rw [getD_lt_eq_getElem _ _ hk]
    exact hget
  exact ⟨k, (hWF _ k).mpr ⟨hk, by rw [hgetD]⟩, hgetD⟩

/-! Bit-level helpers for the layer matrix. -/

theorem and_shift_ne_zero_iff {l i : Nat} (hi : i < 32) :
    ((l % 2 ^ 32) &&& (1 <<< i) ≠ 0) ↔ l.testBit i = true := by
  have hpow : (1 <<< i : Nat) = 2 ^ i := by
    rw [Nat.shiftLeft_eq]
    ring
  constructor
  · intro h
    obtain ⟨j, hj⟩ := Nat.ne_zero_implies_bit_true h
    rw [Nat.testBit_and, Nat.testBit_mod_two_pow, hpow, Nat.testBit_two_pow,
      Bool.and_eq_true, Bool.and_eq_true] at hj
    obtain ⟨⟨_, hbit⟩, hij⟩ := hj
    rw [decide_eq_true_eq] at hij
    rw [hij]
    exact hbit
  · intro h h0
    have h2 : ((l % 2 ^ 32) &&& (1 <<< i)).testBit i = false := by
      rw [h0]
      exact Nat.zero_testBit i
    rw [Nat.testBit_and, Nat.testBit_mod_two_pow, hpow, Nat.testBit_two_pow] at h2
    simp [h, hi] at h2

theorem and_compl32_and_self {m l : Nat} (hl : l < 2 ^ 32) :
    (m &&& (0xFFFFFFFF ^^^ l)) &&& l = 0 := by
  apply Nat.eq_of_testBit_eq
  intro j
  rw [Nat.testBit_and, Nat.testBit_and, Nat.testBit_xor, Nat.zero_testBit,
    show (0xFFFFFFFF : Nat) = 2 ^ 32 - 1 from by norm_num, Nat.testBit_two_pow_sub_one]
  by_cases hj : l.testBit j = true
  · have hjlt : j < 32 := by
      by_contra hge
      have hle : 2 ^ 32 ≤ 2 ^ j := Nat.pow_le_pow_right (by norm_num) (by omega)
      have : l.testBit j = false := Nat.testBit_lt_two_pow (lt_of_lt_of_le hl hle)
      rw [this] at hj
      cases hj
    simp [hj, hjlt]
  · have hj2 : l.testBit j = false := by simpa using hj
    simp [hj2]

theorem and_and_of_and_eq_zero {x c l : Nat} (h : x &&& l = 0) : (x &&& c) &&& l = 0 := by
  apply Nat.eq_of_testBit_eq
  intro j
  have hj : (x &&& l).testBit j = false := by
    rw [h]
    exact Nat.zero_testBit j
  rw [Nat.testBit_and] at hj
  rw [Nat.testBit_and, Nat.testBit_and, Nat.zero_testBit]
  cases hx : x.testBit j <;> cases hl2 : l.testBit j <;> simp_all

/-- If some bit of `layer1` below 8 has a matrix row meeting `layer2`
nowhere, the query returns false. -/
theorem isEnabled_eq_false_of_bit (w : CollisionWorld) (l1 l2 : Nat) (i : Nat) (hi : i < 8)
    (hbit : (l1 % 2 ^ 32) &&& (1 <<< i) ≠ 0)
    (hrow : w.layerMatrix i &&& (l2 % 2 ^ 32) = 0) :
    w.isLayerCollisionEnabled l1 l2 = false := by
  unfold CollisionWorld.isLayerCollisionEnabled
  dsimp only
  rw [Bool.eq_false_iff]
  intro hall
  rw [List.all_eq_true] at hall
  have h2 := hall i (List.mem_range.mpr hi)
  rw [if_pos hbit, decide_eq_true_eq] at h2
  exact h2 hrow

/-- Disabling `(l1, l2)` makes the forward query false, provided `l1` has a
bit among indices 0..7. -/
theorem disable_forward (w : CollisionWorld) (l1 l2 : Nat)
    (h1 : ∃ i, i < 8 ∧ l1.testBit i = true) :
    (w.setLayerCollisionEnabled l1 l2 false).isLayerCollisionEnabled l1 l2 = false := by
  obtain ⟨i, hi, hbit⟩ := h1
  have hbit2 : (l1 % 2 ^ 32) &&& (1 <<< i) ≠ 0 := (and_shift_ne_zero_iff (by omega)).mpr hbit
  apply isEnabled_eq_false_of_bit _ _ _ i hi hbit2
  unfold CollisionWorld.setLayerCollisionEnabled
  dsimp only
  rw [if_pos hi, if_pos hbit2]
  simp only [Bool.false_eq_true, if_false]
  by_cases h2 : (l2 % 2 ^ 32) &&& (1 <<< i) ≠ 0
  · rw [if_pos h2]
    exact and_and_of_and_eq_zero (and_compl32_and_self (Nat.mod_lt _ (by norm_num)))
  · rw [if_neg h2]
    exact and_compl32_and_self (Nat.mod_lt _ (by norm_num))

/-- Disabling `(l1, l2)` also makes the reverse query false, provided `l2`
has a bit among indices 0..7. -/
theorem disable_backward (w : CollisionWorld) (l1 l2 : Nat)
    (h2 : ∃ i, i < 8 ∧ l2.testBit i = true) :
    (w.setLayerCollisionEnabled l1 l2 false).isLayerCollisionEnabled l2 l1 = false := by
  obtain ⟨i, hi, hbit⟩ := h2
  have hbit2 : (l2 % 2 ^ 32) &&& (1 <<< i) ≠ 0 := (and_shift_ne_zero_iff (by omega)).mpr hbit
  apply isEnabled_eq_false_of_bit _ _ _ i hi hbit2
  unfold CollisionWorld.setLayerCollisionEnabled
  dsimp only
  rw [if_pos hi]
  simp only [Bool.false_eq_true, if_false]
  rw [if_pos hbit2]
  exact and_compl32_and_self (Nat.mod_lt _ (by norm_num))

/-! Concrete demonstration worlds. -/

/-- A 10x10 shape on layer `Default` that accepts collisions from nothing. -/
def demoColA : ColliderComponent := ⟨10, 10, 0, 0, ⟨layerDefault, layerNone⟩, false⟩

/-- A 10x10 shape on layer `Default` that accepts collisions from anything. -/
def demoColB : ColliderComponent := ⟨10, 10, 0, 0, ⟨layerDefault, layerAll⟩, false⟩

/-- Two overlapping entries whose masks are incompatible in the direction
from entity 1 to entity 2. -/
def demoWorld : CollisionWorld :=
  (initWorld.addCollider4 1 0 0 demoColA).addCollider4 2 3 3 demoColB

def demoE1 : ColliderEntry := ⟨1, 0, 0, 1, 1, demoColA⟩

def demoE2 : ColliderEntry := ⟨2, 3, 3, 1, 1, demoColB⟩

theorem demo_colliders : demoWorld.colliders = [demoE1, demoE2] := rfl

theorem demo_bounds1 : demoE1.getBounds = ⟨0, 0, 10, 10⟩ := by
  simp only [ColliderEntry.getBounds, ColliderComponent.getBounds, demoE1, demoColA, AABB.mk.injEq]
  norm_num

theorem demo_bounds2 : demoE2.getBounds = ⟨3, 3, 10, 10⟩ := by
  simp only [ColliderEntry.getBounds, ColliderComponent.getBounds, demoE2, demoColB, AABB.mk.injEq]
  norm_num

theorem demo_inter : demoE1.getBounds.intersects demoE2.getBounds = true := by
  rw [demo_bounds1, demo_bounds2]
  simp only [AABB.intersects, AABB.left, AABB.right, AABB.top, AABB.bottom,
    Bool.and_eq_true, decide_eq_true_eq]
  norm_num

theorem demo_canColl :
    demoE1.collider.collisionMask.canCollideWith demoE2.collider.collisionMask = false := by
  decide

theorem demo_WF : WF demoWorld :=
  WF_addCollider _ 2 3 3 1 1 demoColB (WF_addCollider _ 1 0 0 1 1 demoColA WF_initWorld)

theorem demo_getD0 : demoWorld.colliders.getD 0 default = demoE1 := rfl

theorem demo_getD1 : demoWorld.colliders.getD 1 default = demoE2 := rfl

theorem demo_detect : demoWorld.detectCollisions = [mkPairInfo demoE1 demoE2] := by
  show scanPairs [demoE1, demoE2] = _
  simp [scanPairs, scanOne, List.filterMap_cons, demo_inter]

theorem demo_check : demoWorld.checkCollision 1 2 defaultInfo = (false, defaultInfo) := by
  unfold CollisionWorld.checkCollision
  rw [show demoWorld.entityIndexMap 1 = some 0 from rfl,
    show demoWorld.entityIndexMap 2 = some 1 from rfl]
  dsimp only
  rw [demo_getD0, demo_getD1, demo_inter, demo_canColl]
  simp

/-! Claim theorems. -/

/-- C5: `intersects(A, B)` is true exactly when all four strict comparisons
hold (`A.left < B.right`, `A.right > B.left`, `A.top < B.bottom`,
`A.bottom > B.top`); in particular the edge-touching pair A = (0,0,10,10),
B = (10,0,10,10) does not intersect. -/
theorem C5_intersects_strict :
    (∀ a b : AABB, a.intersects b = true ↔
      (a.left < b.right ∧ a.right > b.left ∧ a.top < b.bottom ∧ a.bottom > b.top)) ∧
    AABB.intersects ⟨0, 0, 10, 10⟩ ⟨10, 0, 10, 10⟩ = false := by
  constructor
  · intro a b
    simp [AABB.intersects, and_assoc]
  · rw [Bool.eq_false_iff]
    simp only [AABB.intersects, AABB.left, AABB.right, AABB.top, AABB.bottom,
      Bool.and_eq_true, decide_eq_true_eq]
    norm_num

/-- C7 (amended): for layers L1 and L2 that each have at least one bit set
among bit indices 0..7, after `setLayerCollisionEnabled(L1, L2, false)` on
any prior matrix state, both `isLayerCollisionEnabled(L1, L2)` and
`isLayerCollisionEnabled(L2, L1)` return false. -/
theorem C7_disable_symmetric (w : CollisionWorld) (l1 l2 : Nat)
    (h1 : ∃ i, i < 8 ∧ l1.testBit i = true) (h2 : ∃ i, i < 8 ∧ l2.testBit i = true) :
    (w.setLayerCollisionEnabled l1 l2 false).isLayerCollisionEnabled l1 l2 = false ∧
    (w.setLayerCollisionEnabled l1 l2 false).isLayerCollisionEnabled l2 l1 = false :=
  ⟨disable_forward w l1 l2 h1, disable_backward w l1 l2 h2⟩

/-- C7 counterexample: with L1 = `None` the claim fails — after disabling
(`None`, `Default`), `isLayerCollisionEnabled(None, Default)` is still true,
not false. -/
theorem C7_counterexample :
    (initWorld.setLayerCollisionEnabled layerNone layerDefault false).isLayerCollisionEnabled
      layerNone layerDefault = true := by
  decide

/-- C7 witness: concrete disable of (`Default`, `Player`) on the initial
matrix makes both query directions false. -/
theorem C7_witness :
    (initWorld.setLayerCollisionEnabled layerDefault 2 false).isLayerCollisionEnabled
      layerDefault 2 = false ∧
    (initWorld.setLayerCollisionEnabled layerDefault 2 false).isLayerCollisionEnabled
      2 layerDefault = false :=
  C7_disable_symmetric initWorld layerDefault 2 ⟨0, by decide, by decide⟩ ⟨1, by decide, by decide⟩

/-- C10: whenever L1 has no bit set among indices 0..7 (in particular
L1 = `None`), `isLayerCollisionEnabled(L1, L2)` returns true on any matrix
state, regardless of prior `setLayerCollisionEnabled` calls. -/
theorem C10_isEnabled_vacuous :
    ∀ (w : CollisionWorld) (l1 l2 : Nat),
      (∀ i, i < 8 → l1.testBit i = false) → w.isLayerCollisionEnabled l1 l2 = true := by
  intro w l1 l2 h
  unfold CollisionWorld.isLayerCollisionEnabled
  dsimp only
  rw [List.all_eq_true]
  intro i hiMem
  have hi : i < 8 := List.mem_range.mp hiMem
  have hbit : ¬((l1 % 2 ^ 32) &&& (1 <<< i) ≠ 0) := by
    rw [and_shift_ne_zero_iff (by omega)]
    simp [h i hi]
  rw [if_neg hbit]

/-- C10 witness: querying with `None` after a prior disable call still
reports enabled. -/
theorem C10_witness :
    (initWorld.setLayerCollisionEnabled layerDefault layerDefault false).isLayerCollisionEnabled
      layerNone layerDefault = true :=
  C10_isEnabled_vacuous _ layerNone layerDefault (fun i _ => Nat.zero_testBit i)

/-- C3: `processCollisions` dispatches, in scan order over the unfiltered
`detectCollisions` result, the trigger-enter callback (ids only) when
`isTrigger` is set and the collision callback (full record) otherwise; and
there is a world state where it dispatches for a pair on which
`checkCollision` returns false. -/
theorem C3_processCollisions :
    (∀ w : CollisionWorld, w.processCollisions = w.detectCollisions.map fun info =>
      if info.isTrigger then DispatchEvent.triggerEnter info.entityA info.entityB
      else DispatchEvent.collision info) ∧
    ∃ (w : CollisionWorld) (info : CollisionInfo),
      DispatchEvent.collision info ∈ w.processCollisions ∧
      (w.checkCollision info.entityA info.entityB defaultInfo).fst = false := by
  constructor
  · intro w
    exact processLoop_eq_map _
  · refine ⟨demoWorld, mkPairInfo demoE1 demoE2, ?_, ?_⟩
    · unfold CollisionWorld.processCollisions
      rw [demo_detect, processLoop, processLoop,
        show (mkPairInfo demoE1 demoE2).isTrigger = false from rfl]
      simp
    · rw [show (mkPairInfo demoE1 demoE2).entityA = 1 from rfl,
        show (mkPairInfo demoE1 demoE2).entityB = 2 from rfl, demo_check]

/-- C8: the layer filter of `queryAABB` is inert — any filter returns the
same id sequence as `All`, namely the ids (in entry order) of entries whose
world AABB intersects the query bounds. -/
theorem C8_queryAABB_filter_inert :
    ∀ (w : CollisionWorld) (bounds : AABB) (f : Nat),
      w.queryAABB bounds f = w.queryAABB bounds layerAll ∧
      w.queryAABB bounds f =
        (w.colliders.filter fun e => e.getBounds.intersects bounds).map ColliderEntry.entityId := by
  intro w bounds f
  refine ⟨rfl, ?_⟩
  unfold CollisionWorld.queryAABB
  have hcond : ∀ e : ColliderEntry, bounds.intersects e.getBounds = e.getBounds.intersects bounds :=
    fun e => AABB.intersects_symm bounds e.getBounds
  simp only [hcond]
  exact filterMap_guard _ _ _

/-- The single-entry world used for the corner-point query example. -/
def cornerWorld : CollisionWorld := initWorld.addCollider4 7 0 0 demoColB

def cornerE : ColliderEntry := ⟨7, 0, 0, 1, 1, demoColB⟩

theorem cornerE_bounds : cornerE.getBounds = ⟨0, 0, 10, 10⟩ := by
  simp only [ColliderEntry.getBounds, ColliderComponent.getBounds, cornerE, demoColB, AABB.mk.injEq]
  norm_num

theorem cornerE_contains : cornerE.getBounds.contains 10 10 = true := by
  rw [cornerE_bounds]
  simp only [AABB.contains, AABB.left, AABB.right, AABB.top, AABB.bottom,
    Bool.and_eq_true, decide_eq_true_eq]
  norm_num

/-- C9: `queryPoint` returns, in entry order, the ids of entries containing
the point under inclusive edge comparisons whose own layer meets the
filter; the two-argument overload uses filter `All`; a point exactly on an
AABB corner is reported. -/
theorem C9_queryPoint_inclusive :
    (∀ (w : CollisionWorld) (x y : ℚ) (f : Nat),
      w.queryPoint x y f =
        (w.colliders.filter fun e =>
          e.getBounds.contains x y && hasLayer f e.collider.collisionMask.layer).map
          ColliderEntry.entityId) ∧
    (∀ (a : AABB) (px py : ℚ), a.contains px py = true ↔
      (px ≥ a.left ∧ px ≤ a.right ∧ py ≥ a.top ∧ py ≤ a.bottom)) ∧
    (∀ (w : CollisionWorld) (x y : ℚ), w.queryPoint2 x y = w.queryPoint x y layerAll) ∧
    cornerWorld.queryPoint2 10 10 = [7] := by
  refine ⟨?_, ?_, ?_, ?_⟩
  · intro w x y f
    unfold CollisionWorld.queryPoint
    have hfun : ∀ e : ColliderEntry,
        (if e.getBounds.contains x y = true then
          (if hasLayer f e.collider.collisionMask.layer = true then some e.entityId else none)
         else none) =
        (if (e.getBounds.contains x y && hasLayer f e.collider.collisionMask.layer) = true then
          some e.entityId else none) := by
      intro e
      by_cases h1 : e.getBounds.contains x y <;>
        by_cases h2 : hasLayer f e.collider.collisionMask.layer <;> simp [h1, h2]
    simp only [hfun]
    exact filterMap_guard _ _ _
  · intro a px py
    simp [AABB.contains, and_assoc]
  · intro w x y
    rfl
  · unfold CollisionWorld.queryPoint2 CollisionWorld.queryPoint
    rw [show cornerWorld.colliders = [cornerE] from rfl]
    rw [List.filterMap_cons, cornerE_contains]
    simp only [show hasLayer layerAll cornerE.collider.collisionMask.layer = true from by decide,
      if_true, List.filterMap_nil]
    rfl

/-- C6: every positive pair result of `detectCollisions`,
`detectCollisionsForEntity` and `checkCollision` carries
`overlapX = min(A.right - B.left, B.right - A.left)` and
`overlapY = min(A.bottom - B.top, B.bottom - A.top)` over its own stored
bounds, and both overlaps are non-negative. -/
theorem C6_overlap_formula :
    (∀ w : CollisionWorld, ∀ info ∈ w.detectCollisions, overlapSpec info) ∧
    (∀ (w : CollisionWorld) (id : EntityID), ∀ info ∈ w.detectCollisionsForEntity id,
      overlapSpec info) ∧
    (∀ (w : CollisionWorld) (a b : EntityID) (out : CollisionInfo),
      (w.checkCollision a b out).fst = true → overlapSpec (w.checkCollision a b out).snd) := by
  refine ⟨?_, ?_, ?_⟩
  · intro w info hmem
    obtain ⟨a, b, hint, rfl⟩ := scanPairs_sound hmem
    exact mkPairInfo_overlapSpec a b hint
  · intro w id info hmem
    obtain ⟨index, other, _, _, _, hint, _, rfl⟩ := mem_dCFE hmem
    exact mkPairInfo_overlapSpec _ other hint
  · intro w a b out
    unfold CollisionWorld.checkCollision
    cases hma : w.entityIndexMap a with
    | none => intro h; simp at h
    | some ia =>
      cases hmb : w.entityIndexMap b with
      | none => intro h; simp at h
      | some ib =>
        dsimp only
        by_cases hint : (w.colliders.getD ia default).getBounds.intersects
            ((w.colliders.getD ib default).getBounds) = true
        · rw [if_pos hint]
          by_cases hcan : (w.colliders.getD ia default).collider.collisionMask.canCollideWith
              ((w.colliders.getD ib default).collider.collisionMask) = true
          · rw [if_pos hcan]
            intro _
            exact mkPairInfo_overlapSpec (w.colliders.getD ia default)
              (w.colliders.getD ib default) hint
          · rw [if_neg hcan]
            intro h
            simp at h
        · rw [if_neg hint]
          intro h
          simp at h

/-- C6 witness: the overlap contract holds for the concrete demo pair. -/
theorem C6_witness : overlapSpec (mkPairInfo demoE1 demoE2) :=
  C6_overlap_formula.1 demoWorld (mkPairInfo demoE1 demoE2)
    (by rw [demo_detect]; exact List.mem_singleton.mpr rfl)

/-- C4: `checkCollision(a, b, outInfo)` returns false exactly when a or b is
unregistered, the entries' world AABBs do not intersect, or entry a's mask
fails `canCollideWith` against entry b's mask; on true it populates the out
record with both ids, both bounds, the per-axis overlaps and the OR of the
trigger flags; on false the out record is unchanged. -/
theorem C4_checkCollision_contract :
    ∀ (w : CollisionWorld) (a b : EntityID) (out : CollisionInfo),
      ((w.checkCollision a b out).fst = false ↔
        (w.getCollider a = none ∨ w.getCollider b = none ∨
          ∃ ea eb, w.getCollider a = some ea ∧ w.getCollider b = some eb ∧
            (ea.getBounds.intersects eb.getBounds = false ∨
             ea.collider.collisionMask.canCollideWith eb.collider.collisionMask = false))) ∧
      ((w.checkCollision a b out).fst = true →
        ∃ ea eb, w.getCollider a = some ea ∧ w.getCollider b = some eb ∧
          (w.checkCollision a b out).snd =
            { entityA := a, entityB := b, boundsA := ea.getBounds, boundsB := eb.getBounds,
              overlapX := min (ea.getBounds.right - eb.getBounds.left)
                (eb.getBounds.right - ea.getBounds.left),
              overlapY := min (ea.getBounds.bottom - eb.getBounds.top)
                (eb.getBounds.bottom - ea.getBounds.top),
              isTrigger := ea.collider.isTrigger || eb.collider.isTrigger }) ∧
      ((w.checkCollision a b out).fst = false → (w.checkCollision a b out).snd = out) := by
  intro w a b out
  unfold CollisionWorld.checkCollision CollisionWorld.getCollider
  cases hma : w.entityIndexMap a with
  | none =>
    refine ⟨by simp, ?_, fun _ => rfl⟩
    intro h
    simp at h
  | some ia =>
    cases hmb : w.entityIndexMap b with
    | none =>
      refine ⟨by simp, ?_, fun _ => rfl⟩
      intro h
      simp at h
    | some ib =>
      dsimp only
      by_cases hint : (w.colliders.getD ia default).getBounds.intersects
          ((w.colliders.getD ib default).getBounds) = true
      · rw [if_pos hint]
        by_cases hcan : (w.colliders.getD ia default).collider.collisionMask.canCollideWith
            ((w.colliders.getD ib default).collider.collisionMask) = true
        · rw [if_pos hcan]
          refine ⟨?_, ?_, ?_⟩
          · constructor
            · intro h
              simp at h
            · rintro (h | h | ⟨ea, eb, hea, heb, hbad⟩)
              · simp at h
              · simp at h
              · obtain rfl : ea = w.colliders.getD ia default :=
                  (Option.some_injective _ hea).symm
                obtain rfl : eb = w.colliders.getD ib default :=
                  (Option.some_injective _ heb).symm
                rcases hbad with hb | hb
                · rw [hb] at hint
                  simp at hint
                · rw [hb] at hcan
                  simp at hcan
          · intro _
            exact ⟨_, _, rfl, rfl, rfl⟩
          · intro h
            simp at h
        · rw [if_neg hcan]
          have hcanf : (w.colliders.getD ia default).collider.collisionMask.canCollideWith
              ((w.colliders.getD ib default).collider.collisionMask) = false := by
            simpa using hcan
          refine ⟨?_, ?_, fun _ => rfl⟩
          · constructor
            · intro _
              exact Or.inr (Or.inr ⟨_, _, rfl, rfl, Or.inr hcanf⟩)
            · intro _
              rfl
          · intro h
            simp at h
      · rw [if_neg hint]
        have hintf : (w.colliders.getD ia default).getBounds.intersects
            ((w.colliders.getD ib default).getBounds) = false := by
          simpa using hint
        refine ⟨?_, ?_, fun _ => rfl⟩
        · constructor
          · intro _
            exact Or.inr (Or.inr ⟨_, _, rfl, rfl, Or.inl hintf⟩)
          · intro _
            rfl
        · intro h
          simp at h

/-- C4 witness: on the demo world the mask-incompatible pair returns false
and leaves the out-parameter unchanged. -/
theorem C4_witness : (demoWorld.checkCollision 1 2 defaultInfo).snd = defaultInfo :=
  (C4_checkCollision_contract demoWorld 1 2 defaultInfo).2.2 (by rw [demo_check])

/-- C1: for two registered entries with intersecting world AABBs whose masks
are incompatible in the initiating direction, `detectCollisions` still
includes the pair, while `detectCollisionsForEntity` on the initiating
entity excludes it. -/
theorem C1_unfiltered_vs_filtered :
    ∀ (w : CollisionWorld) (a b : EntityID) (ia ib : Nat), WF w →
      w.entityIndexMap a = some ia → w.entityIndexMap b = some ib → a ≠ b →
      (w.colliders.getD ia default).getBounds.intersects
        ((w.colliders.getD ib default).getBounds) = true →
      (w.colliders.getD ia default).collider.collisionMask.canCollideWith
        ((w.colliders.getD ib default).collider.collisionMask) = false →
      ((∃ info ∈ w.detectCollisions,
          (info.entityA = a ∧ info.entityB = b) ∨ (info.entityA = b ∧ info.entityB = a)) ∧
        ∀ info ∈ w.detectCollisionsForEntity a, info.entityB ≠ b) := by
  intro w a b ia ib hWF hma hmb hab hint hcan
  obtain ⟨hia, haid⟩ := (hWF a ia).mp hma
  obtain ⟨hib, hbid⟩ := (hWF b ib).mp hmb
  have hiaib : ia ≠ ib := by
    intro he
    exact hab (by rw [← haid, he, hbid])
  constructor
  · rcases Nat.lt_or_ge ia ib with hlt | hge
    · exact ⟨mkPairInfo (w.colliders.getD ia default) (w.colliders.getD ib default),
        scanPairs_complete _ ia ib hlt hib hint, Or.inl ⟨haid, hbid⟩⟩
    · have hlt2 : ib < ia := by omega
      have hint2 : (w.colliders.getD ib default).getBounds.intersects
          ((w.colliders.getD ia default).getBounds) = true := by
        rw [AABB.intersects_symm]
        exact hint
      exact ⟨mkPairInfo (w.colliders.getD ib default) (w.colliders.getD ia default),
        scanPairs_complete _ ib ia hlt2 hia hint2, Or.inr ⟨hbid, haid⟩⟩
  · intro info hmem hEq
    obtain ⟨index, other, hmap2, hoth_mem, hoth_ne, hint2, hcan2, rfl⟩ := mem_dCFE hmem
    rw [hma] at hmap2
    obtain rfl : ia = index := Option.some_injective _ hmap2
    have hob : other.entityId = b := hEq
    obtain ⟨k, hk_map, hk_getD⟩ := mem_resolves w hWF other hoth_mem
    rw [hob, hmb] at hk_map
    obtain rfl : ib = k := Option.some_injective _ hk_map
    rw [hk_getD] at hcan
    rw [hcan] at hcan2
    cases hcan2

/-- C1 witness: the demo world exhibits the divergence concretely. -/
theorem C1_witness :
    (∃ info ∈ demoWorld.detectCollisions,
        (info.entityA = 1 ∧ info.entityB = 2) ∨ (info.entityA = 2 ∧ info.entityB = 1)) ∧
    ∀ info ∈ demoWorld.detectCollisionsForEntity 1, info.entityB ≠ 2 :=
  C1_unfiltered_vs_filtered demoWorld 1 2 0 1 demo_WF rfl rfl (by decide)
    (by exact demo_inter) (by exact demo_canColl)

/-- C2 (amended): every mutating operation preserves the index-map
invariant, registered ids are pairwise distinct; after adding a previously
unregistered id and removing it, `hasCollider` is false and the count
returns to its prior value; and removal leaves every other id with its
unchanged `getCollider` result. -/
theorem C2_index_map_invariant :
    (∀ (w : CollisionWorld) (id : EntityID) (x y sx sy : ℚ) (col : ColliderComponent),
      WF w → WF (w.addCollider id x y sx sy col)) ∧
    (∀ (w : CollisionWorld) (id : EntityID), WF w → WF (w.removeCollider id)) ∧
    (∀ (w : CollisionWorld) (id : EntityID) (x y : ℚ), WF w → WF (w.updatePosition id x y)) ∧
    (∀ (w : CollisionWorld) (id : EntityID) (sx sy : ℚ), WF w → WF (w.updateScale id sx sy)) ∧
    (∀ w : CollisionWorld, WF w.clear) ∧
    (∀ w : CollisionWorld, WF w → ∀ i j, i < w.colliders.length → j < w.colliders.length →
      (w.colliders.getD i default).entityId = (w.colliders.getD j default).entityId → i = j) ∧
    (∀ (w : CollisionWorld) (id : EntityID) (x y sx sy : ℚ) (col : ColliderComponent),
      w.entityIndexMap id = none →
      ((w.addCollider id x y sx sy col).removeCollider id).hasCollider id = false ∧
      ((w.addCollider id x y sx sy col).removeCollider id).getColliderCount =
        w.getColliderCount) ∧
    (∀ (w : CollisionWorld) (id id2 : EntityID), WF w → id2 ≠ id →
      (w.removeCollider id).getCollider id2 = w.getCollider id2) := by
  refine ⟨?_, ?_, ?_, ?_, ?_, ?_, ?_, ?_⟩
  · intro w id x y sx sy col hWF
    exact WF_addCollider w id x y sx sy col hWF
  · intro w id hWF
    exact WF_remove w id hWF
  · intro w id x y hWF
    exact WF_updatePosition w id x y hWF
  · intro w id sx sy hWF
    exact WF_updateScale w id sx sy hWF
  · exact WF_clear
  · intro w hWF i j hi hj h
    exact WF_distinct w hWF i j hi hj h
  · intro w id x y sx sy col h
    exact ⟨hasCollider_remove_self _ id, count_add_remove w id x y sx sy col h⟩
  · intro w id id2 hWF hne
    exact getCollider_remove_ne w id id2 hWF hne

/-- The one-entry base world of the C2 counterexample. -/
def cBase : CollisionWorld := initWorld.addCollider4 1 0 0 defaultCollider

/-- C2 counterexample: when the id is already registered, `addCollider`
replaces the entry (remove + append), so add-then-remove ends with one
entry fewer than before the add, and the collider count does not return to
its prior value. -/
theorem C2_counterexample :
    ((cBase.addCollider4 1 0 0 defaultCollider).removeCollider 1).getColliderCount ≠
      cBase.getColliderCount := by
  decide

/-- C2 witness: removing entity 1 from the demo world leaves entity 2
retrievable with its unchanged data. -/
theorem C2_witness : (demoWorld.removeCollider 1).getCollider 2 = demoWorld.getCollider 2 :=
  C2_index_map_invariant.2.2.2.2.2.2.2 demoWorld 1 2 demo_WF (by decide)

end GameEngine

